import Mathlib

/-
Verification of pyswip-notebook (src/pyswip_notebook/prolog_notebook.py).

The repository is a thin isolation and translation layer over the external
SWI-Prolog engine accessed through pyswip.  The embedding below translates
the repository's own code (IsolatedProlog and the temp_file context manager)
faithfully; the external engine and the pyswip query loop, which are not part
of the repository, are modelled from the specification's collaborator
contract where a claim needs them.
-/

namespace PyswipNotebook

/-- Python values flowing through `IsolatedProlog._QueryWrapper._normalize_values`:
pyswip `Atom` objects (carrying their `.value` string), pyswip `Functor`
objects (name string plus argument list), python dicts keyed by variable
name, python lists (tuples are modelled as lists, which is also what the
code returns for them), python strings and python ints.  `pystr`/`pyint`
are the pass-through leaves the code returns unchanged. -/
inductive PyObj where
  | atomObj : String → PyObj
  | functorObj : String → List PyObj → PyObj
  | pydict : List (String × PyObj) → PyObj
  | pylist : List PyObj → PyObj
  | pystr : String → PyObj
  | pyint : Int → PyObj

mutual

/-- Python's `str(...)` applied to a value, as used in
`_normalize_values` on already-normalized functor arguments:
a string is returned as itself, an int in decimal, lists and dicts via the
repr of their elements; on a pyswip `Atom` it yields the atom's text, and on
a `Functor` its name (these two cases are never reached by the code, which
only stringifies normalized values). -/
def pyStr : PyObj → String
  | .atomObj v => v
  | .functorObj n _ => n
  | .pydict es => "\x7b" ++ String.intercalate ", " (pyReprEntries es) ++ "\x7d"
  | .pylist es => "[" ++ String.intercalate ", " (pyReprList es) ++ "]"
  | .pystr s => s
  | .pyint n => toString n

/-- Python's `repr(...)` on a value (strings get single quotes; escape
sequences inside the string are not modelled, no claim depends on them). -/
def pyRepr : PyObj → String
  | .pystr s => "\x27" ++ s ++ "\x27"
  | .pydict es => "\x7b" ++ String.intercalate ", " (pyReprEntries es) ++ "\x7d"
  | .pylist es => "[" ++ String.intercalate ", " (pyReprList es) ++ "]"
  | x => pyStr x

def pyReprList : List PyObj → List String
  | [] => []
  | a :: as => pyRepr a :: pyReprList as

def pyReprEntries : List (String × PyObj) → List String
  | [] => []
  | (k, v) :: es => ("\x27" ++ k ++ "\x27: " ++ pyRepr v) :: pyReprEntries es

end

mutual

/-- Embedding of `IsolatedProlog._QueryWrapper._normalize_values`
(prolog_notebook.py lines 75-89): a pyswip `Atom` becomes its `.value`
string; a `Functor` becomes its name when its arity is 0, otherwise
`name(` + the normalized-and-stringified arguments joined by `, ` + `)`;
a dict is rebuilt with each value normalized; a list (or tuple) becomes a
list with each element normalized; anything else is returned unchanged. -/
def normalize_values : PyObj → PyObj
  | .atomObj v => .pystr v
  | .functorObj n args =>
      if args.isEmpty then .pystr n
      else .pystr (n ++ "(" ++ String.intercalate ", " (normStrList args) ++ ")")
  | .pydict es => .pydict (normEntries es)
  | .pylist es => .pylist (normList es)
  | .pystr s => .pystr s
  | .pyint n => .pyint n

/-- The list comprehension `[str(self._normalize_values(arg)) for arg in values.args]`. -/
def normStrList : List PyObj → List String
  | [] => []
  | a :: as => pyStr (normalize_values a) :: normStrList as

/-- The dict comprehension over items in the dict branch of `_normalize_values`. -/
def normEntries : List (String × PyObj) → List (String × PyObj)
  | [] => []
  | (k, v) :: es => (k, normalize_values v) :: normEntries es

/-- The list comprehension in the list/tuple branch of `_normalize_values`. -/
def normList : List PyObj → List PyObj
  | [] => []
  | a :: as => normalize_values a :: normList as

end

/-- A raw solution as delivered by the pyswip layer with `normalize=False`:
the binding list of one engine answer, one `(variable name, term)` pair per
binding (each pyswip binding functor `=` has `.value` equal to the singleton
dict from the variable name to the bound term). -/
abbrev RawSol := List (String × PyObj)

/-- Python's `dict.update` with a singleton dict `\x7bk: v\x7d`: an existing key
keeps its position and gets the new value, a new key is appended. -/
def dictUpdate (d : List (String × PyObj)) (k : String) (v : PyObj) : List (String × PyObj) :=
  if (d.lookup k).isSome then d.map (fun p => if p.1 = k then (k, v) else p)
  else d ++ [(k, v)]

/-- The dict-building branch of `IsolatedProlog._QueryWrapper.__call__`
(lines 63-69): the raw binding list `t` is a python list, so `t.value`
raises AttributeError and the except-branch runs, folding
`v.update(self._normalize_values(x.value))` over the bindings into an
initially empty dict. -/
def wrapperSolution (t : RawSol) : PyObj :=
  .pydict (t.foldl (fun v b => dictUpdate v b.1 (normalize_values b.2)) [])

/-- One element yielded by `_QueryWrapper.__call__`: either the raw
binding-list term (`normalize=False`) or the normalized solution dict. -/
inductive QueryOut where
  | raw : RawSol → QueryOut
  | val : PyObj → QueryOut

/-- Modelled from the spec: the enumeration loop of the external pyswip
query wrapper, `while maxresult and PL_next_solution(...)`, which the
repository's `_QueryWrapper.__call__` drives via `super().__call__`.
`maxresult` is tested for being nonzero before each pull and decremented
after each yielded solution, so a negative value (the default -1) never
reaches zero and enumerates every solution the engine reports. -/
def takeResults : Int → List RawSol → List RawSol
  | _, [] => []
  | m, s :: rest => if m = 0 then [] else s :: takeResults (m - 1) rest

/-- Embedding of `IsolatedProlog._QueryWrapper.__call__` (lines 60-73)
applied to the engine's enumeration `sols`: the pyswip layer yields up to
`maxresult` raw solutions and each is either normalized into a solution
dict or passed through raw. -/
def queryWrapperCall (sols : List RawSol) (maxresult : Int) (normalize : Bool) : List QueryOut :=
  (takeResults maxresult sols).map (fun t => if normalize then .val (wrapperSolution t) else .raw t)

/-- Embedding of the `IsolatedProlog` session object: its only state is the
`module_name` string chosen in `__init__` (the `pl.newModule` handle lives
in the external engine). -/
structure IsolatedProlog where
  module_name : String

/-- Embedding of `IsolatedProlog.__init__` (lines 91-103): when no module
is given the name is `"m"` followed by `uuid.uuid4().hex` (a random 128-bit
identifier in hex, supplied here as the parameter `uuid4hex`); a caller
supplied module string is used as-is via `str(module)`, with no validation
of any kind.  `pl.newModule` is called on the name; per the spec's
collaborator contract `newNamespace(name) -> handle` it has no failure
mode, so construction always succeeds. -/
def IsolatedProlog.init (module : Option String) (uuid4hex : String) : IsolatedProlog :=
  match module with
  | none => { module_name := "m" ++ uuid4hex }
  | some m => { module_name := m }

/-- The goal text `IsolatedProlog.query` (line 204) hands to the engine:
`self.module_name + ":" + query`. -/
def IsolatedProlog.goalText (p : IsolatedProlog) (query : String) : String :=
  p.module_name ++ ":" ++ query

/-- Characters before and after the first `:` of a string, when it has one. -/
def splitAtColon : List Char → Option (List Char × List Char)
  | [] => none
  | c :: cs =>
      if c = ':' then some ([], cs)
      else
        match splitAtColon cs with
        | some (a, b) => some (c :: a, b)
        | none => none

/-- Modelled from the spec: the engine reads a goal text of the form
`namespace:goal` and resolves the goal inside the module named before the
first colon. -/
def parseQualified (g : String) : Option (String × String) :=
  match splitAtColon g.data with
  | some (m, r) => some (⟨m⟩, ⟨r⟩)
  | none => none

/-- Remove a literal leading character sequence, failing when absent. -/
def stripPre : List Char → List Char → Option (List Char)
  | [], s => some s
  | _ :: _, [] => none
  | p :: ps, c :: cs => if c = p then stripPre ps cs else none

/-- Remove a literal trailing character sequence, failing when absent. -/
def stripSuf (post s : List Char) : Option (List Char) :=
  (stripPre post.reverse s.reverse).map List.reverse

/-- Text strictly between a fixed head and a fixed tail, when both match. -/
def stripWrap (pre post s : String) : Option String :=
  (stripPre pre.data s.data).bind fun r => (stripSuf post.data r).map fun t => ⟨t⟩

/-- Modelled from the spec: the engine's process-wide state, one private
fact store per module name. -/
abbrev Engine := List (String × List String)

/-- The private fact store of module `m` (empty when the module has no
entry yet). -/
def getFacts : Engine → String → List String
  | [], _ => []
  | (k, v) :: e, m => if k = m then v else getFacts e m

/-- Replace the fact store of module `m`, creating the entry when absent. -/
def setFacts : Engine → String → List String → Engine
  | [], m, fs => [(m, fs)]
  | (k, v) :: e, m, fs => if k = m then (m, fs) :: e else (k, v) :: setFacts e m fs

/-- Modelled from the spec: `executeGoal(goalText)` of the external engine.
The module before the first colon scopes the goal: an `asserta((F)).` or
`assertz((F)).` goal adds the fact F at the front or back of that module's
private store and succeeds with one empty solution; any other (ground) goal
succeeds with one empty solution exactly when it is a fact of that module.
Only the module named in the qualification is ever read or written. -/
def executeGoal (e : Engine) (goalText : String) : Engine × List RawSol :=
  match parseQualified goalText with
  | none => (e, [])
  | some (m, g) =>
      match stripWrap "asserta((" "))." g with
      | some f => (setFacts e m (f :: getFacts e m), [[]])
      | none =>
          match stripWrap "assertz((" "))." g with
          | some f => (setFacts e m (getFacts e m ++ [f]), [[]])
          | none => (e, if g ∈ getFacts e m then [[]] else [])

/-- Embedding of `IsolatedProlog.query` (lines 172-204) against the
modelled engine: the goal is prefixed with `module_name + ":"` and handed
to `_QueryWrapper()(...)` together with `maxresult` and the `normalize`
flag.  (`catcherrors` is threaded through for fidelity; the modelled
engine-state semantics has no error outcomes, those are modelled separately
for the consult claims.) -/
def IsolatedProlog.query (p : IsolatedProlog) (query : String) (maxresult : Int)
    (catcherrors normalize : Bool) (e : Engine) : Engine × List QueryOut :=
  let r := executeGoal e (p.goalText query)
  (r.1, queryWrapperCall r.2 maxresult normalize)

/-- State effect of `IsolatedProlog.asserta` (lines 105-109):
`next(self.query("asserta((" + assertion + "))."))` with the method's
defaults. -/
def IsolatedProlog.asserta (p : IsolatedProlog) (assertion : String) (e : Engine) : Engine :=
  (p.query ("asserta((" ++ assertion ++ "))." ) (-1) false true e).1

/-- State effect of `IsolatedProlog.assertz` (lines 111-115):
`next(self.query("assertz((" + assertion + "))."))` with the method's
defaults. -/
def IsolatedProlog.assertz (p : IsolatedProlog) (assertion : String) (e : Engine) : Engine :=
  (p.query ("assertz((" ++ assertion ++ "))." ) (-1) false true e).1

/-- The solutions a session observes for a goal: the yielded sequence of
`IsolatedProlog.query` with the method's default arguments
(`maxresult=-1`, `catcherrors=True`, `normalize=True`). -/
def IsolatedProlog.queryResults (p : IsolatedProlog) (q : String) (e : Engine) : List QueryOut :=
  (p.query q (-1) true true e).2

/-- The value of `platform.system()`: the code branches only on whether it
equals `"Windows"`. -/
inductive Pltfrm where
  | windows : Pltfrm
  | posix : Pltfrm
deriving DecidableEq

/-- Modelled from the spec: the outcome of the engine-level load of the
staged file inside a `consult` call — the load goal succeeds with a
solution, fails with no solution, or raises an engine execution error. -/
inductive EngineOutcome where
  | success : EngineOutcome
  | noSolution : EngineOutcome
  | engineError : EngineOutcome
deriving DecidableEq

/-- Python exceptions that can escape `consult`. -/
inductive PyError where
  | fileNotFound : PyError
  | stopIteration : PyError
  | prologError : PyError
deriving DecidableEq

/-- Observable outcome of one `consult` call: the exception it raises (if
any), the files existing on storage afterwards, and whether a temporary
file was created and the engine reached. -/
structure ConsultTrace where
  result : Option PyError
  files : List String
  tempCreated : Bool
  engineCalled : Bool
deriving DecidableEq

/-- Modelled from the spec: what `next(self.query(goal, catcherrors))`
does given the engine outcome of the goal.  A successful goal yields a
solution, so `next` returns it; a goal with no solution yields nothing, so
`next` raises StopIteration; an engine execution error is swallowed when
`catcherrors` is true — per the spec the sequence then terminates early
with no elements, so `next` again raises StopIteration — and propagated as
a prolog error when `catcherrors` is false. -/
def nextQueryOutcome (catcherrors : Bool) (o : EngineOutcome) : Option PyError :=
  match o with
  | .success => none
  | .noSolution => some .stopIteration
  | .engineError => if catcherrors then some .stopIteration else some .prologError

/-- Embedding of `IsolatedProlog.consult` (lines 155-170) together with the
`temp_file` context manager (lines 30-48), as a trace over an explicit set
`fs` of existing file paths.  With `file=True` the knowledge base path is
opened first and a missing path raises FileNotFound.  Otherwise a staged
temporary file `tmpName` (the `uuid.uuid4().hex` name on Windows, the
`NamedTemporaryFile` name elsewhere) is created, written, flushed, and the
load goal is issued through `next(self.query(...))` with outcome
`outcome`.  On the non-Windows branch `NamedTemporaryFile` deletes the file
when the `with` block exits, on any path.  On the Windows branch the
generator runs `os.remove(fname)` only after a normal return of its body:
an exception raised at the `yield` propagates out of the generator and the
remove line is never reached, so the staged file stays on storage. -/
def consult (pltfrm : Pltfrm) (fs : List String) (file : Bool) (knowledge_base : String)
    (catcherrors : Bool) (tmpName : String) (outcome : EngineOutcome) : ConsultTrace :=
  if file && !(fs.contains knowledge_base) then
    { result := some .fileNotFound, files := fs, tempCreated := false, engineCalled := false }
  else
    let r := nextQueryOutcome catcherrors outcome
    match pltfrm with
    | .windows =>
        { result := r
          files := if r.isNone then fs else tmpName :: fs
          tempCreated := true
          engineCalled := true }
    | .posix =>
        { result := r, files := fs, tempCreated := true, engineCalled := true }

/-! Helper lemmas about the string plumbing of the embedding. -/

theorem data_append (a b : String) : (a ++ b).data = a.data ++ b.data := rfl

theorem splitAtColon_append (m r : List Char) (h : ':' ∉ m) :
    splitAtColon (m ++ ':' :: r) = some (m, r) := by
  induction m with
  | nil => simp [splitAtColon]
  | cons c cs ih =>
      have hc : c ≠ ':' := fun hc => h (hc ▸ List.mem_cons_self c cs)
      have hcs : ':' ∉ cs := fun hx => h (List.mem_cons_of_mem c hx)
      simp [splitAtColon, hc, ih hcs]

theorem parseQualified_mk (m r : String) (h : ':' ∉ m.data) :
    parseQualified (m ++ ":" ++ r) = some (m, r) := by
  have hd : (m ++ ":" ++ r).data = m.data ++ ':' :: r.data := by
    simp [data_append]
  unfold parseQualified
  rw [hd, splitAtColon_append _ _ h]

theorem stripPre_self_append (p s : List Char) : stripPre p (p ++ s) = some s := by
  induction p with
  | nil => rfl
  | cons c cs ih => simp [stripPre, ih]

theorem stripSuf_self_append (post f : List Char) : stripSuf post (f ++ post) = some f := by
  unfold stripSuf
  rw [List.reverse_append, stripPre_self_append]
  simp

theorem stripWrap_wrap (pre post f : String) :
    stripWrap pre post (pre ++ f ++ post) = some f := by
  have hd : (pre ++ f ++ post).data = pre.data ++ (f.data ++ post.data) := by
    simp [data_append]
  unfold stripWrap
  rw [hd, stripPre_self_append]
  simp [stripSuf_self_append]

theorem stripPre_asserta_of_assertz (l : List Char) :
    stripPre "asserta((".data ("assertz((".data ++ l) = none := rfl

theorem stripWrap_asserta_of_assertz (f : String) :
    stripWrap "asserta((" "))." ("assertz((" ++ f ++ "))." ) = none := by
  have hd : ("assertz((" ++ f ++ "))." ).data = "assertz((".data ++ (f.data ++ ")).".data) := by
    simp [data_append]
  unfold stripWrap
  rw [hd, stripPre_asserta_of_assertz]
  rfl

theorem stripPre_assertz_of_asserta (l : List Char) :
    stripPre "assertz((".data ("asserta((".data ++ l) = none := rfl

theorem stripWrap_assertz_of_asserta (f : String) :
    stripWrap "assertz((" "))." ("asserta((" ++ f ++ "))." ) = none := by
  have hd : ("asserta((" ++ f ++ "))." ).data = "asserta((".data ++ (f.data ++ ")).".data) := by
    simp [data_append]
  unfold stripWrap
  rw [hd, stripPre_assertz_of_asserta]
  rfl

/-! Helper lemmas about the modelled engine state. -/

theorem getFacts_setFacts_self (e : Engine) (m : String) (fs : List String) :
    getFacts (setFacts e m fs) m = fs := by
  induction e with
  | nil => simp [setFacts, getFacts]
  | cons p e ih =>
      by_cases hk : p.1 = m
      · simp [setFacts, getFacts, hk]
      · simp [setFacts, getFacts, hk, ih]

theorem getFacts_setFacts_ne (e : Engine) (m m' : String) (fs : List String) (h : m ≠ m') :
    getFacts (setFacts e m fs) m' = getFacts e m' := by
  induction e with
  | nil => simp [setFacts, getFacts, h]
  | cons p e ih =>
      by_cases hk : p.1 = m
      · simp [setFacts, getFacts, hk, h]
      · simp [setFacts, getFacts, hk, ih]

/-- Executing the goal text built by `IsolatedProlog.assertz` appends the
fact at the back of the named module's store and reports one empty
solution. -/
theorem executeGoal_assertz (e : Engine) (mn f : String) (h : ':' ∉ mn.data) :
    executeGoal e (mn ++ ":" ++ ("assertz((" ++ f ++ "))." )) =
      (setFacts e mn (getFacts e mn ++ [f]), [[]]) := by
  unfold executeGoal
  rw [parseQualified_mk _ _ h]
  simp only [stripWrap_asserta_of_assertz, stripWrap_wrap]

/-- Executing the goal text built by `IsolatedProlog.asserta` puts the
fact at the front of the named module's store and reports one empty
solution. -/
theorem executeGoal_asserta (e : Engine) (mn f : String) (h : ':' ∉ mn.data) :
    executeGoal e (mn ++ ":" ++ ("asserta((" ++ f ++ "))." )) =
      (setFacts e mn (f :: getFacts e mn), [[]]) := by
  unfold executeGoal
  rw [parseQualified_mk _ _ h]
  simp only [stripWrap_wrap]

/-- A query issued through a session whose module name contains no colon
reads facts of its own module only, so its yielded results are unchanged
when the store of any other module is replaced. -/
theorem queryResults_setFacts_other (B : IsolatedProlog) (g : String) (e : Engine)
    (m : String) (fs : List String) (hB : ':' ∉ B.module_name.data)
    (h : m ≠ B.module_name) :
    B.queryResults g (setFacts e m fs) = B.queryResults g e := by
  unfold IsolatedProlog.queryResults IsolatedProlog.query IsolatedProlog.goalText
  simp only
  unfold executeGoal
  rw [parseQualified_mk _ _ hB]
  simp only []
  rw [getFacts_setFacts_ne e m B.module_name fs h]
  cases h1 : stripWrap "asserta((" "))." g with
  | some f => simp only [h1]
  | none =>
      cases h2 : stripWrap "assertz((" "))." g with
      | some f => simp only [h1, h2]
      | none => simp only [h1, h2]

/-- The engine-state effect of `IsolatedProlog.assertz`: the fact lands at
the back of the session's own module store. -/
theorem assertz_state (A : IsolatedProlog) (f : String) (e : Engine)
    (hA : ':' ∉ A.module_name.data) :
    A.assertz f e = setFacts e A.module_name (getFacts e A.module_name ++ [f]) := by
  unfold IsolatedProlog.assertz IsolatedProlog.query IsolatedProlog.goalText
  simp only
  rw [executeGoal_assertz e A.module_name f hA]

/-- The engine-state effect of `IsolatedProlog.asserta`: the fact lands at
the front of the session's own module store. -/
theorem asserta_state (A : IsolatedProlog) (f : String) (e : Engine)
    (hA : ':' ∉ A.module_name.data) :
    A.asserta f e = setFacts e A.module_name (f :: getFacts e A.module_name) := by
  unfold IsolatedProlog.asserta IsolatedProlog.query IsolatedProlog.goalText
  simp only
  rw [executeGoal_asserta e A.module_name f hA]

/-- Claim C1: for every two sessions created with distinct (colon-free)
namespace identifiers, a fact asserted through one session via asserta or
assertz is never visible to any query issued through the other session —
the other session's query results are exactly what they were before the
assertion — even though both run against the single shared engine state;
and every goal a session submits is executed inside that session's
namespace by prefixing it with the namespace and a colon. -/
theorem distinct_namespaces_isolated (A B : IsolatedProlog) (e : Engine) (f g : String)
    (hA : ':' ∉ A.module_name.data) (hB : ':' ∉ B.module_name.data)
    (hne : A.module_name ≠ B.module_name) :
    B.queryResults g (A.assertz f e) = B.queryResults g e ∧
    B.queryResults g (A.asserta f e) = B.queryResults g e ∧
    A.goalText g = A.module_name ++ ":" ++ g := by
  refine ⟨?_, ?_, rfl⟩
  · rw [assertz_state A f e hA, queryResults_setFacts_other B g e _ _ hB hne]
  · rw [asserta_state A f e hA, queryResults_setFacts_other B g e _ _ hB hne]

/-- Witness for C1 at two concrete sessions and a concrete fact. -/
theorem distinct_namespaces_isolated_witness :
    (':' ∉ "alpha".data ∧ ':' ∉ "beta".data ∧ "alpha" ≠ "beta") ∧
    ((⟨"beta"⟩ : IsolatedProlog).queryResults "bird(tweety)"
        ((⟨"alpha"⟩ : IsolatedProlog).assertz "bird(tweety)" []) =
      (⟨"beta"⟩ : IsolatedProlog).queryResults "bird(tweety)" [] ∧
     (⟨"beta"⟩ : IsolatedProlog).queryResults "bird(tweety)"
        ((⟨"alpha"⟩ : IsolatedProlog).asserta "bird(tweety)" []) =
      (⟨"beta"⟩ : IsolatedProlog).queryResults "bird(tweety)" [] ∧
     (⟨"alpha"⟩ : IsolatedProlog).goalText "bird(tweety)" = "alpha" ++ ":" ++ "bird(tweety)") :=
  ⟨⟨by decide, by decide, by decide⟩,
   distinct_namespaces_isolated ⟨"alpha"⟩ ⟨"beta"⟩ [] "bird(tweety)" "bird(tweety)"
     (by decide) (by decide) (by decide)⟩

/-- Claim C10: two sessions created with the same explicit (colon-free)
namespace identifier denote the same engine module: a fact asserted
through one is visible to a query for it through the other, which yields
one empty solution dict.  (The queried fact itself must not be
assert-shaped, otherwise the query would be a mutation.) -/
theorem same_namespace_shares_facts (A B : IsolatedProlog) (e : Engine) (f : String)
    (hmod : A.module_name = B.module_name) (hA : ':' ∉ A.module_name.data)
    (h1 : stripWrap "asserta((" "))." f = none)
    (h2 : stripWrap "assertz((" "))." f = none) :
    B.queryResults f (A.assertz f e) = [.val (.pydict [])] := by
  rw [assertz_state A f e hA, hmod]
  unfold IsolatedProlog.queryResults IsolatedProlog.query IsolatedProlog.goalText
  simp only
  unfold executeGoal
  rw [parseQualified_mk _ _ (hmod ▸ hA)]
  simp only [h1, h2, getFacts_setFacts_self]
  rw [if_pos (by simp : f ∈ getFacts e B.module_name ++ [f])]
  simp [queryWrapperCall, takeResults, wrapperSolution]

/-- Witness for C10 at one concrete shared namespace and fact. -/
theorem same_namespace_shares_facts_witness :
    ("m1" = "m1" ∧ ':' ∉ "m1".data ∧
     stripWrap "asserta((" "))." "father(michael,john)" = none ∧
     stripWrap "assertz((" "))." "father(michael,john)" = none) ∧
    (⟨"m1"⟩ : IsolatedProlog).queryResults "father(michael,john)"
        ((⟨"m1"⟩ : IsolatedProlog).assertz "father(michael,john)" []) =
      [.val (.pydict [])] :=
  ⟨⟨rfl, by decide, by decide, by decide⟩,
   same_namespace_shares_facts ⟨"m1"⟩ ⟨"m1"⟩ [] "father(michael,john)"
     rfl (by decide) (by decide) (by decide)⟩

/-! Lemmas about the pyswip enumeration loop. -/

theorem takeResults_zero (l : List RawSol) : takeResults 0 l = [] := by
  cases l <;> simp [takeResults]

theorem takeResults_neg (m : Int) (l : List RawSol) (h : m < 0) : takeResults m l = l := by
  induction l generalizing m with
  | nil => rfl
  | cons s rest ih =>
      have hm : m ≠ 0 := by omega
      simp [takeResults, hm, ih (m - 1) (by omega)]

/-- Claim C4: for a goal with no free variables the engine's enumeration is one
answer with an empty binding list when the goal is satisfied and no answer
when it is unsatisfied; the query wrapper (at its default arguments)
turns the former into exactly one yielded element, the empty solution
dict, and the latter into zero yielded elements. -/
theorem noFreeVar_yes_no_convention :
    queryWrapperCall [[]] (-1) true = [.val (.pydict [])] ∧
    queryWrapperCall [] (-1) true = [] := by
  constructor <;> simp [queryWrapperCall, takeResults, wrapperSolution]

theorem normStrList_eq_map (args : List PyObj) :
    normStrList args = args.map fun a => pyStr (normalize_values a) := by
  induction args with
  | nil => simp [normStrList]
  | cons a as ih => simp [normStrList, ih]

/-- Claim C5: normalizing a compound with name N and at least one argument
yields the string N followed by the normalized-and-stringified arguments,
joined by comma-space, in parentheses; a compound with no arguments
normalizes to the plain constant N; in particular the compound
father(michael, john) normalizes to the string "father(michael, john)". -/
theorem compound_normalization (N : String) (args : List PyObj) (h : args ≠ []) :
    normalize_values (.functorObj N args) =
      .pystr (N ++ "(" ++ String.intercalate ", "
        (args.map fun a => pyStr (normalize_values a)) ++ ")") ∧
    normalize_values (.functorObj N []) = .pystr N ∧
    normalize_values (.functorObj "father" [.atomObj "michael", .atomObj "john"]) =
      .pystr "father(michael, john)" := by
  refine ⟨?_, by simp [normalize_values], ?_⟩
  · cases args with
    | nil => exact absurd rfl h
    | cons a as => simp [normalize_values, normStrList_eq_map]
  · simp [normalize_values, normStrList, pyStr]
    decide

/-- Witness for C5 at the father(michael, john) compound. -/
theorem compound_normalization_witness :
    (([PyObj.atomObj "michael", PyObj.atomObj "john"] : List PyObj) ≠ []) ∧
    normalize_values (.functorObj "father" [.atomObj "michael", .atomObj "john"]) =
      .pystr ("father" ++ "(" ++ String.intercalate ", "
        (([PyObj.atomObj "michael", PyObj.atomObj "john"] : List PyObj).map
          fun a => pyStr (normalize_values a)) ++ ")") :=
  ⟨List.cons_ne_nil _ _,
   (compound_normalization "father" [.atomObj "michael", .atomObj "john"]
     (List.cons_ne_nil _ _)).1⟩

/-- Claim C7: with maxresult = 1 a goal whose engine enumeration has more than
one answer yields exactly the first solution; with the default
maxresult = -1 (unlimited) every answer the engine reports is yielded. -/
theorem maxresult_cap_and_unlimited (s₁ s₂ : RawSol) (rest : List RawSol) :
    queryWrapperCall (s₁ :: s₂ :: rest) 1 true = [.val (wrapperSolution s₁)] ∧
    queryWrapperCall (s₁ :: s₂ :: rest) (-1) true =
      (s₁ :: s₂ :: rest).map fun t => .val (wrapperSolution t) := by
  constructor
  · simp [queryWrapperCall, takeResults, takeResults_zero]
  · simp [queryWrapperCall, takeResults_neg (-1) _ (by decide)]

mutual

theorem normalize_values_idem_aux : ∀ x : PyObj,
    normalize_values (normalize_values x) = normalize_values x
  | .atomObj v => by simp [normalize_values]
  | .functorObj n args => by
      by_cases h : args.isEmpty = true <;> simp [normalize_values, h]
  | .pydict es => by simp [normalize_values, normEntries_idem_aux es]
  | .pylist es => by simp [normalize_values, normList_idem_aux es]
  | .pystr s => by simp [normalize_values]
  | .pyint n => by simp [normalize_values]

theorem normEntries_idem_aux : ∀ es, normEntries (normEntries es) = normEntries es
  | [] => by simp [normEntries]
  | (k, v) :: es => by
      simp [normEntries, normalize_values_idem_aux v, normEntries_idem_aux es]

theorem normList_idem_aux : ∀ es, normList (normList es) = normList es
  | [] => by simp [normList]
  | a :: as => by simp [normList, normalize_values_idem_aux a, normList_idem_aux as]

end

/-- Claim C6: `_normalize_values` is idempotent — normalizing an
already-normalized value (of any Term shape: atomic, compound, mapping or
sequence, as well as the pass-through leaves) is a no-op. -/
theorem normalize_values_idempotent (x : PyObj) :
    normalize_values (normalize_values x) = normalize_values x :=
  normalize_values_idem_aux x

/-- Claim C9 counterexample: creating a session with the empty namespace string
is not rejected — `__init__` performs no validation and yields a session
whose module name is the empty string. -/
theorem init_accepts_empty_namespace :
    IsolatedProlog.init (some "") "0123456789abcdef0123456789abcdef" =
      { module_name := "" } := rfl

/-- Claim C9 amended: session creation performs no validation at all — any
caller-supplied namespace string is accepted as-is and creation never
fails — and when no namespace is supplied the name is "m" followed by a
random 128-bit identifier in hex. -/
theorem init_no_validation (s u : String) :
    (IsolatedProlog.init (some s) u).module_name = s ∧
    (IsolatedProlog.init none u).module_name = "m" ++ u :=
  ⟨rfl, rfl⟩

/-- Claim C2 (code bug): on the Windows branch of `temp_file`, when the engine
call inside `consult` raises (here: an engine error with
catcherrors=False), the exception propagates out of the generator at the
`yield` and the `os.remove(fname)` line is never reached, so the staged
temporary file is still on storage after the call. -/
theorem consult_windows_error_keeps_tempfile :
    consult .windows [] false "bird(tweety)." false "tmpstaged" .engineError =
      { result := some .prologError, files := ["tmpstaged"],
        tempCreated := true, engineCalled := true } ∧
    "tmpstaged" ∈ (consult .windows [] false "bird(tweety)." false
      "tmpstaged" .engineError).files := by
  constructor <;> decide

/-- Claim C3 counterexample: with catcherrors=True an engine-level load failure
does not let `consult` return normally — the swallowed error leaves the
query with no solutions and `next(...)` raises StopIteration — and on the
Windows branch that exception also leaves the staged file on storage. -/
theorem consult_catcherrors_counterexample :
    (consult .posix [] false "p." true "tmpA" .engineError).result =
      some .stopIteration ∧
    "tmpB" ∈ (consult .windows [] false "p." true "tmpB" .engineError).files := by
  constructor <;> decide

/-- Claim C3 amended: with catcherrors=True an engine-level load failure is
absorbed as far as engine errors go — no prolog error reaches the caller —
but `consult` raises StopIteration because the error-swallowed query
yields no solution for `next(...)`; on the self-deleting-handle
(non-Windows) branch the temporary file is nevertheless deleted. -/
theorem consult_catcherrors_absorbs_engine_error (fs : List String) (kb tmp : String) :
    consult .posix fs false kb true tmp .engineError =
      { result := some .stopIteration, files := fs,
        tempCreated := true, engineCalled := true } := by
  simp [consult, nextQueryOutcome]

/-- Claim C8: a `consult` call with file=True and a source path that does not
exist raises FileNotFound before any temporary file is created and before
any engine interaction, on every platform and for either catcherrors
setting. -/
theorem consult_missing_path (p : Pltfrm) (fs : List String) (kb : String)
    (catcherrors : Bool) (tmp : String) (o : EngineOutcome) (h : kb ∉ fs) :
    consult p fs true kb catcherrors tmp o =
      { result := some .fileNotFound, files := fs,
        tempCreated := false, engineCalled := false } := by
  simp [consult]
  intro hm
  exact absurd hm h

/-- Witness for C8 at a concrete missing path. -/
theorem consult_missing_path_witness :
    ("missing.pl" ∉ (["kb.pl"] : List String)) ∧
    consult .posix ["kb.pl"] true "missing.pl" true "tmpC" .success =
      { result := some .fileNotFound, files := ["kb.pl"],
        tempCreated := false, engineCalled := false } :=
  ⟨by decide,
   consult_missing_path .posix ["kb.pl"] "missing.pl" true "tmpC" .success (by decide)⟩

end PyswipNotebook
